import Mathlib

/-!
Verification development for the medical-telegram-warehouse pipeline.

This file gives a shallow embedding, in Lean 4, of the pure logic of the
pipeline components (the YOLO image classifier, the pipeline run report,
the PostgreSQL upsert loader, the Telegram scraper loop, the Dagster
new-data sensor, and the CSV writer/reader pair for detection results),
and proves or refutes the specification claims about them.

Conventions of the embedding:
- timestamps are modelled as integers on an abstract, totally ordered
  timeline (the code only compares and subtracts them);
- Python strings are modelled as Lean `String` where only equality is
  used, and as `List Char` where the code splits, joins and strips them;
- database state is a list of rows, a transaction being a pure function
  from state to state; the `ON CONFLICT` clause of an SQL upsert is
  embedded as an explicit insert-or-update on that list;
- exceptions are modelled by `Option` results or by explicit outcome
  values where the code catches them.
-/

namespace MedWarehouse

/-! ## yolo_detect.py : YOLODetector.classify_image

A detection, as produced by `YOLODetector.detect_objects`, is a dict with
keys `class_id`, `class_name`, `confidence` and `bbox`; `classify_image`
reads only `class_name`, and the CSV writer reads only `class_name` and
`confidence`, so the embedding keeps those two fields. -/

structure Detection where
  class_name : String
  confidence : ℚ
deriving DecidableEq

/-- The list comprehension `[d['class_name'] for d in detections]`. -/
def detectedClasses (detections : List Detection) : List String :=
  detections.map (fun d => d.class_name)

/-- The literal `medical_containers = ['bottle', 'cup', 'bowl']`. -/
def medical_containers : List String := ["bottle", "cup", "bowl"]

/-- The literal `medical_tools = ['scissors', 'knife']`. -/
def medical_tools : List String := ["scissors", "knife"]

/-- Embedding of `YOLODetector.classify_image`.  The source turns the
class-name list into a set before testing membership; `any`/`contains`
over the list have the same truth value as over the set, so the set
conversion is dropped. -/
def classify_image (detections : List Detection) : String :=
  if detections.isEmpty then "other"
  else
    let detected_classes := detectedClasses detections
    let has_medical_container := detected_classes.any (fun cls => medical_containers.contains cls)
    let has_person := detected_classes.contains "person"
    let has_medical_tool := detected_classes.any (fun cls => medical_tools.contains cls)
    if has_person && has_medical_container then "promotional"
    else if has_medical_container && !has_person then "product_display"
    else if has_person && !has_medical_container then "lifestyle"
    else if has_medical_tool then "medical_tools"
    else "other"

/-- The rule table exactly as the specification words it: an ordered list
of label-set predicates evaluated top-to-bottom on the detected label
collection, first match wins, default `"other"`. -/
def ruleTableCategory (labels : List String) : String :=
  let container := labels.any (fun cls => medical_containers.contains cls)
  let person := labels.contains "person"
  let tool := labels.any (fun cls => medical_tools.contains cls)
  if container && person then "promotional"
  else if container then "product_display"
  else if person then "lifestyle"
  else if tool then "medical_tools"
  else "other"

lemma branch_eq (container person tool : Bool) :
    (if person && container then "promotional"
     else if container && !person then "product_display"
     else if person && !container then "lifestyle"
     else if tool then "medical_tools"
     else "other")
    = (if container && person then "promotional"
       else if container then "product_display"
       else if person then "lifestyle"
       else if tool then "medical_tools"
       else "other") := by
  cases container <;> cases person <;> cases tool <;> rfl

lemma classify_image_eq_ruleTable (ds : List Detection) :
    classify_image ds = ruleTableCategory (detectedClasses ds) := by
  cases ds with
  | nil => rfl
  | cons d tl =>
    show (if (d :: tl).isEmpty then "other" else _) = _
    rw [show (d :: tl).isEmpty = false from rfl]
    simp only [Bool.false_eq_true, if_false]
    exact branch_eq _ _ _

lemma contains_congr {l₁ l₂ : List String} (h : ∀ s, s ∈ l₁ ↔ s ∈ l₂) (x : String) :
    l₁.contains x = l₂.contains x := by
  have h1 : l₁.contains x = true ↔ l₂.contains x = true := by
    rw [List.elem_iff, List.elem_iff]
    exact h x
  cases hx : l₁.contains x with
  | true => exact (h1.mp hx).symm
  | false =>
    cases hy : l₂.contains x with
    | true => exact absurd (h1.mpr hy) (by rw [hx]; simp)
    | false => rfl

lemma any_contains_congr {l₁ l₂ : List String} (h : ∀ s, s ∈ l₁ ↔ s ∈ l₂)
    (ms : List String) :
    l₁.any (fun cls => ms.contains cls) = l₂.any (fun cls => ms.contains cls) := by
  have h1 : l₁.any (fun cls => ms.contains cls) = true
      ↔ l₂.any (fun cls => ms.contains cls) = true := by
    simp only [List.any_eq_true]
    constructor
    · rintro ⟨x, hx, hms⟩; exact ⟨x, (h x).mp hx, hms⟩
    · rintro ⟨x, hx, hms⟩; exact ⟨x, (h x).mpr hx, hms⟩
  cases hx : l₁.any (fun cls => ms.contains cls) with
  | true => exact (h1.mp hx).symm
  | false =>
    cases hy : l₂.any (fun cls => ms.contains cls) with
    | true => exact absurd (h1.mpr hy) (by rw [hx]; simp)
    | false => rfl

lemma ruleTable_congr {l₁ l₂ : List String} (h : ∀ s, s ∈ l₁ ↔ s ∈ l₂) :
    ruleTableCategory l₁ = ruleTableCategory l₂ := by
  unfold ruleTableCategory
  rw [contains_congr h "person", any_contains_congr h medical_containers,
    any_contains_congr h medical_tools]

/-- C1: `classify_image` computes exactly the category of the fixed rule
table (container ∧ person → promotional, container → product_display,
person → lifestyle, tool → medical_tools, default other, in that order)
evaluated on the detected label collection, and it is a deterministic
function of the detected-label set: any two detection lists with the same
set of labels are classified identically (in particular the empty list
falls through every rule to "other"). -/
theorem classify_image_rule_table :
    (∀ ds : List Detection, classify_image ds = ruleTableCategory (detectedClasses ds)) ∧
    (∀ ds₁ ds₂ : List Detection,
      (∀ s, s ∈ detectedClasses ds₁ ↔ s ∈ detectedClasses ds₂) →
      classify_image ds₁ = classify_image ds₂) := by
  refine ⟨classify_image_eq_ruleTable, ?_⟩
  intro ds₁ ds₂ h
  rw [classify_image_eq_ruleTable, classify_image_eq_ruleTable]
  exact ruleTable_congr h

/-- A promotional image (bottle and person, in either multiplicity or
order) and a lifestyle image: concrete instantiation of the C1 theorem. -/
theorem classify_image_rule_table_witness :
    classify_image [⟨"bottle", 9/10⟩, ⟨"person", 1/2⟩]
      = ruleTableCategory (detectedClasses [⟨"bottle", 9/10⟩, ⟨"person", 1/2⟩]) ∧
    classify_image [⟨"person", 1/2⟩, ⟨"bottle", 9/10⟩, ⟨"bottle", 1/3⟩]
      = classify_image [⟨"bottle", 9/10⟩, ⟨"person", 1/2⟩] := by
  constructor
  · exact classify_image_rule_table.1 _
  · refine classify_image_rule_table.2 _ _ ?_
    intro s
    simp only [detectedClasses, List.map_cons, List.map_nil, List.mem_cons,
      List.not_mem_nil, or_false]
    tauto

/-! ## pipeline.py : generate_report

Each upstream op returns a dict whose `status` key is one of
`"success"`, `"skipped"`, `"ready"` (or would have raised instead of
returning).  `generate_report` receives those dicts positionally in
`*args`; every argument it receives is a dict, so the
`isinstance(arg, dict)` guard is the identity on the embedded input. -/

structure StepPayload where
  status : String
  timestamp : String
deriving DecidableEq

structure StepEntry where
  step : Nat
  status : String
  timestamp : String
deriving DecidableEq

structure RunReport where
  total_steps : Nat
  successful_steps : Nat
  all_successful : Bool
  steps : List StepEntry
deriving DecidableEq

/-- The status whitelist of `successful_steps = [s for s in steps if
s['status'] in ['success', 'ready', 'skipped']]`. -/
def successful_statuses : List String := ["success", "ready", "skipped"]

/-- Embedding of `generate_report` (pipeline.py): build one step entry
per argument (1-based position), count the entries whose status is in
the whitelist, and set `all_successful` to whether that count equals the
number of steps. -/
def generate_report (args : List StepPayload) : RunReport :=
  let steps := args.enum.map (fun p => StepEntry.mk (p.1 + 1) p.2.status p.2.timestamp)
  let successful := steps.filter (fun s => successful_statuses.contains s.status)
  { total_steps := steps.length
    successful_steps := successful.length
    all_successful := successful.length == steps.length
    steps := steps }

/-- A run whose single step was skipped. -/
def skippedRunReport : RunReport := generate_report [⟨"skipped", "t1"⟩]

/-- C2 counterexample: a run in which the only step has status
`"skipped"` is reported with `all_successful = true`, although not every
step has status `"success"` — refuting the claim that `all_successful`
holds iff every step succeeded. -/
theorem generate_report_skipped_counts_as_success :
    skippedRunReport.all_successful = true ∧
    skippedRunReport.steps.map StepEntry.status = ["skipped"] ∧
    ("skipped" == "success") = false := by
  refine ⟨rfl, rfl, ?_⟩
  decide

lemma length_filter_eq_iff {α : Type} (p : α → Bool) (l : List α) :
    (l.filter p).length = l.length ↔ ∀ a ∈ l, p a = true := by
  induction l with
  | nil => simp
  | cons x xs ih =>
    by_cases hx : p x = true
    · simp [hx, ih]
    · have hle := List.length_filter_le p xs
      constructor
      · intro hlen
        exfalso
        rw [List.filter_cons_of_neg (by simp [hx])] at hlen
        simp only [List.length_cons] at hlen
        omega
      · intro hall
        exact absurd (hall x (by simp)) hx

/-- C2 amended: `all_successful` is true iff every step's status is in
the whitelist `{"success", "ready", "skipped"}` (so a skipped or
merely-ready step still counts toward overall success). -/
theorem generate_report_all_successful_iff (args : List StepPayload) :
    (generate_report args).all_successful = true ↔
      ∀ s ∈ (generate_report args).steps, successful_statuses.contains s.status = true := by
  unfold generate_report
  simp only [beq_iff_eq]
  exact length_filter_eq_iff _ _

/-- Concrete instantiation of the amended C2 theorem: a success-plus-
skipped run is flagged all-successful. -/
theorem generate_report_all_successful_iff_witness :
    (generate_report [⟨"success", "t1"⟩, ⟨"skipped", "t2"⟩]).all_successful = true := by
  rw [generate_report_all_successful_iff]
  decide

/-! ## pipeline.py : new_data_sensor

The sensor reads the persisted Dagster cursor (`None` on the first
evaluation, defaulting to the epoch `"1970-01-01"`), compares each source
file's modification time against it, and either emits one `RunRequest`
after advancing the cursor to `now`, or emits none and leaves the cursor
untouched.  File modification times and `now` live on the integer
timeline; the epoch is its origin. -/

def epoch : Int := 0

/-- Embedding of `new_data_sensor` (pipeline.py): returns the number of
run requests emitted by this evaluation together with the cursor as
persisted after the evaluation. -/
def new_data_sensor (cursor : Option Int) (now : Int) (file_mtimes : List Int) :
    Nat × Option Int :=
  let last_run_time := cursor.getD epoch
  let new_files := file_mtimes.filter (fun t => last_run_time < t)
  if new_files.isEmpty then (0, cursor)
  else (1, some now)

/-- C9: if some file's modification time is strictly after the stored
watermark then the sensor emits exactly one run request and the
watermark is advanced to `now`, strictly increasing (file times never
exceed the current time); if no file is newer than the watermark, no
request is emitted and the stored cursor is unchanged. -/
theorem new_data_sensor_watermark (cursor : Option Int) (now : Int)
    (file_mtimes : List Int) (hnow : ∀ t ∈ file_mtimes, t ≤ now) :
    ((∃ t ∈ file_mtimes, cursor.getD epoch < t) →
        new_data_sensor cursor now file_mtimes = (1, some now) ∧
        cursor.getD epoch < now) ∧
    ((∀ t ∈ file_mtimes, t ≤ cursor.getD epoch) →
        new_data_sensor cursor now file_mtimes = (0, cursor)) := by
  constructor
  · rintro ⟨t, htmem, htnew⟩
    have hne : (file_mtimes.filter (fun t => cursor.getD epoch < t)).isEmpty = false := by
      rw [List.isEmpty_eq_false_iff_exists_mem]
      exact ⟨t, List.mem_filter.mpr ⟨htmem, by simpa using htnew⟩⟩
    constructor
    · unfold new_data_sensor
      simp only [hne, Bool.false_eq_true, if_false]
    · exact lt_of_lt_of_le htnew (hnow t htmem)
  · intro hold
    have hempty : (file_mtimes.filter (fun t => cursor.getD epoch < t)).isEmpty = true := by
      rw [List.isEmpty_iff, List.filter_eq_nil_iff]
      intro t htmem
      simpa using not_lt.mpr (hold t htmem)
    unfold new_data_sensor
    simp only [hempty, if_true]

/-- Concrete instantiation of the C9 theorem: watermark 5, one file
modified at 7, current time 9 — one request, cursor advanced to 9; and a
later evaluation at watermark 9 with the same file emits nothing. -/
theorem new_data_sensor_watermark_witness :
    new_data_sensor (some 5) 9 [7] = (1, some 9) ∧
    new_data_sensor (some 9) 11 [7] = (0, some 9) := by
  constructor
  · exact ((new_data_sensor_watermark (some 5) 9 [7] (by decide)).1 (by decide)).1
  · exact (new_data_sensor_watermark (some 9) 11 [7] (by decide)).2 (by decide)

/-! ## scraper.py : TelegramScraper

A Telegram message as consumed by `scrape_channel` / `process_message`:
`date` is the message timestamp (timezone conversion is an
order-preserving identity on the instant, so it is dropped), `media` is
`none` when the message has no media and `some isPhoto` otherwise
(`isPhoto` telling whether it is a `MessageMediaPhoto`), and
`text`/`views`/`forwards` are the optional payload fields whose Python
`or`-defaults `process_message` applies. -/

structure TgMessage where
  id : Int
  date : Int
  text : Option String
  media : Option Bool
  views : Option Int
  forwards : Option Int
deriving DecidableEq

/-- The dict built by `TelegramScraper.process_message`. -/
structure MsgData where
  message_id : Int
  channel_name : String
  message_date : Int
  message_text : String
  has_media : Bool
  views : Int
  forwards : Int
  image_path : Option String
  scraped_at : Int
deriving DecidableEq

/-- Embedding of `process_message`: the image is downloaded (to
`images/<channel>/<id>.jpg`) exactly when the media is a photo. -/
def process_message (scraped_at : Int) (channel_name : String) (m : TgMessage) : MsgData :=
  { message_id := m.id
    channel_name := channel_name
    message_date := m.date
    message_text := m.text.getD ""
    has_media := m.media.isSome
    views := m.views.getD 0
    forwards := m.forwards.getD 0
    image_path := if m.media = some true
      then some ("data/raw/images/" ++ channel_name ++ "/" ++ toString m.id ++ ".jpg")
      else none
    scraped_at := scraped_at }

/-- The window computation of `scrape_channel`:
`start_date = end_date - timedelta(days=days_back)` with
`end_date = now`.  Time is measured in days on the integer timeline. -/
def scrape_start_date (now : Int) (days_back : Int) : Int := now - days_back

/-- The message loop of `scrape_channel`: iterate over the stream the
client yields for `offset_date = end_date, reverse = True`, stop at the
first message dated before `start_date`, and otherwise process and
collect the message. -/
def scrape_channel_loop (start_date scraped_at : Int) (channel_name : String) :
    List TgMessage → List MsgData
  | [] => []
  | m :: rest =>
    if m.date < start_date then []
    else process_message scraped_at channel_name m ::
      scrape_channel_loop start_date scraped_at channel_name rest

lemma scrape_channel_loop_eq_takeWhile (start_date scraped_at : Int)
    (channel_name : String) (stream : List TgMessage) :
    scrape_channel_loop start_date scraped_at channel_name stream
      = (stream.takeWhile (fun m => decide (start_date ≤ m.date))).map
          (process_message scraped_at channel_name) := by
  induction stream with
  | nil => rfl
  | cons m rest ih =>
    by_cases hm : m.date < start_date
    · rw [scrape_channel_loop, if_pos hm, List.takeWhile_cons_of_neg (by simpa using hm)]
      rfl
    · rw [scrape_channel_loop, if_neg hm,
        List.takeWhile_cons_of_pos (by simpa using not_lt.mp hm), List.map_cons, ih]

/-- C7: the records produced by a channel pass are the processed forms
of the longest prefix of the client stream lying on or after the window
start — the pass ends either with the stream (which the client bounds by
the window end `offset_date`) or at the first message strictly older
than the window start — and, whenever the client stream is in
chronological (ascending) order, so is the produced record sequence. -/
theorem scrape_channel_order_termination (start_date scraped_at : Int)
    (channel_name : String) (stream : List TgMessage)
    (hsorted : stream.Pairwise (fun a b => a.date ≤ b.date)) :
    scrape_channel_loop start_date scraped_at channel_name stream
      = (stream.takeWhile (fun m => decide (start_date ≤ m.date))).map
          (process_message scraped_at channel_name) ∧
    (scrape_channel_loop start_date scraped_at channel_name stream).Pairwise
      (fun a b => a.message_date ≤ b.message_date) := by
  refine ⟨scrape_channel_loop_eq_takeWhile _ _ _ _, ?_⟩
  rw [scrape_channel_loop_eq_takeWhile]
  refine List.Pairwise.map _ (fun a b h => h) ?_
  exact List.Pairwise.sublist (List.takeWhile_sublist _) hsorted

/-- Concrete instantiation of the C7 theorem: a two-message ascending
stream inside the window is collected in full, in ascending order. -/
theorem scrape_channel_order_termination_witness :
    scrape_channel_loop 3 20 "chemed"
        [⟨1, 5, some "a", none, some 4, none⟩, ⟨2, 6, none, some true, none, some 1⟩]
      = ([⟨1, 5, some "a", none, some 4, none⟩, ⟨2, 6, none, some true, none, some 1⟩].takeWhile
          (fun m => decide ((3 : Int) ≤ m.date))).map (process_message 20 "chemed") ∧
    (scrape_channel_loop 3 20 "chemed"
        [⟨1, 5, some "a", none, some 4, none⟩, ⟨2, 6, none, some true, none, some 1⟩]).Pairwise
      (fun a b => a.message_date ≤ b.message_date) :=
  scrape_channel_order_termination 3 20 "chemed" _ (by decide)

/-- Written from the spec for refinement comparison (the code has no
counterpart): the lower bound the specification prescribes for a pass,
`max(cursor[source], now - max_lookback)`. -/
def specWindowLowerBound (cursor now max_lookback : Int) : Int :=
  max cursor (now - max_lookback)

/-- Written from the spec for refinement comparison: the per-source
cursor the specification prescribes after a committed pass, namely the
window end of that pass. -/
def specCursorAfterPass (window_end : Int) : Int := window_end

/-- C5 counterexample: a first pass at `now = 10` has window end 10, so
the spec-side cursor is 10; for the next pass at `now = 11` with a
7-day lookback the claimed lower bound is `max(10, 11 - 7) = 10`, but
the code computes `scrape_start_date 11 7 = 4` — the scraper keeps no
cursor and always looks back the full window. -/
theorem scrape_start_date_ignores_cursor :
    scrape_start_date 11 7 ≠ specWindowLowerBound (specCursorAfterPass 10) 11 7 := by
  decide

/-- C5 amended: the lower bound of every collection pass is exactly
`now - days_back`, independent of any previous pass; consequently,
whenever the spec-side cursor lies strictly above `now - days_back`
(i.e. the previous pass already covered part of the window), the code's
lower bound disagrees with the claimed `max(cursor, now - lookback)`.
No per-source cursor is persisted by the scraper. -/
theorem scrape_start_date_spec (now days_back cursor : Int) :
    scrape_start_date now days_back = now - days_back ∧
    (now - days_back < cursor →
      scrape_start_date now days_back ≠ specWindowLowerBound cursor now days_back) := by
  refine ⟨rfl, fun h => ?_⟩
  unfold scrape_start_date specWindowLowerBound
  rw [max_eq_left (le_of_lt h)]
  exact ne_of_lt h

/-- Concrete instantiation of the amended C5 theorem. -/
theorem scrape_start_date_spec_witness :
    scrape_start_date 11 7 = 11 - 7 ∧
    scrape_start_date 11 7 ≠ specWindowLowerBound 10 11 7 := by
  refine ⟨(scrape_start_date_spec 11 7 10).1, ?_⟩
  exact (scrape_start_date_spec 11 7 10).2 (by decide)

/-- Outcome of one channel pass as seen from `scrape_all_channels`: the
client either delivers the channel's messages or raises a
`FloodWaitError` carrying the wait in seconds. -/
inductive ChannelOutcome
  | ok (messages : List MsgData)
  | floodWait (seconds : Nat)
deriving DecidableEq

/-- What `scrape_channel` returns for a given outcome: its outermost
`try/except Exception` swallows every error — `FloodWaitError`
included — and returns the empty list, so a throttled pass yields no
records at all. -/
def scrape_channel_result : ChannelOutcome → List MsgData
  | .ok messages => messages
  | .floodWait _ => []

/-- Embedding of the channel loop of `scrape_all_channels`: scrape each
channel in turn and save the result exactly when it is nonempty.  The
`except FloodWaitError` arm of the loop body is unreachable (the error
never escapes `scrape_channel`), and in particular no channel is ever
retried or resumed. -/
def scrape_all_channels (channels : List String) (source : String → ChannelOutcome) :
    List (String × List MsgData) :=
  (channels.map (fun c => (c, scrape_channel_result (source c)))).filter
    (fun p => !p.2.isEmpty)

/-- A record that the example channel would deliver when not throttled. -/
def exampleMsg : MsgData :=
  { message_id := 1, channel_name := "chemed", message_date := 5,
    message_text := "a", has_media := false, views := 4, forwards := 0,
    image_path := none, scraped_at := 20 }

/-- A source in which the only channel is rate-limited mid-window. -/
def throttledSource : String → ChannelOutcome := fun _ => .floodWait 30

/-- The same source once throttling clears: the channel has one message. -/
def clearSource : String → ChannelOutcome := fun _ => .ok [exampleMsg]

/-- C6 counterexample: an unthrottled pass over channel `"chemed"` saves
its one record, while the pass that receives the rate-limit signal saves
nothing — the collector neither resumes the throttled source nor
collects its records, leaving a gap relative to the unthrottled pass. -/
theorem scrape_all_channels_drops_throttled :
    scrape_all_channels ["chemed"] throttledSource = [] ∧
    scrape_all_channels ["chemed"] clearSource = [("chemed", [exampleMsg])] := by
  exact ⟨rfl, rfl⟩

/-- C6 amended: on a rate-limit signal the pass for that source is
aborted and contributes no records (it is not suspended-and-resumed),
while the other sources are unaffected: no saved entry belongs to the
throttled channel, and the saved entries of every other channel are
identical to those obtained under any source behaviour that agrees
outside the throttled channel. -/
theorem scrape_all_channels_flood_isolation (channels : List String)
    (source source' : String → ChannelOutcome) (c : String) (n : Nat)
    (hc : source c = .floodWait n)
    (hagree : ∀ x, x ≠ c → source x = source' x) :
    (∀ p ∈ scrape_all_channels channels source, p.1 ≠ c) ∧
    (scrape_all_channels channels source).filter (fun p => decide (p.1 ≠ c))
      = (scrape_all_channels channels source').filter (fun p => decide (p.1 ≠ c)) := by
  constructor
  · intro p hp
    rcases List.mem_filter.mp hp with ⟨hmem, hne⟩
    rcases List.mem_map.mp hmem with ⟨x, _, hx⟩
    intro hpc
    have hxc : x = c := by rw [← hx] at hpc; exact hpc
    rw [← hx, hxc, hc] at hne
    simp [scrape_channel_result] at hne
  · unfold scrape_all_channels
    induction channels with
    | nil => rfl
    | cons x xs ih =>
      by_cases hxc : x = c
      · subst hxc
        rw [List.map_cons, hc, List.map_cons,
          List.filter_cons_of_neg (by simp [scrape_channel_result])]
        cases hb : (scrape_channel_result (source' x)).isEmpty with
        | true =>
          rw [List.filter_cons_of_neg (by simp [hb])]
          exact ih
        | false =>
          rw [List.filter_cons_of_pos (p := fun q : String × List MsgData => !q.2.isEmpty)
              (by simp only [hb, Bool.not_false]),
            List.filter_cons_of_neg (by simp)]
          exact ih
      · rw [List.map_cons, hagree x hxc, List.map_cons]
        cases hb : (scrape_channel_result (source' x)).isEmpty with
        | true =>
          rw [List.filter_cons_of_neg (by simp [hb]),
            List.filter_cons_of_neg (by simp [hb])]
          exact ih
        | false =>
          rw [List.filter_cons_of_pos (p := fun q : String × List MsgData => !q.2.isEmpty)
              (by simp only [hb, Bool.not_false]),
            List.filter_cons_of_pos (p := fun q : String × List MsgData => !q.2.isEmpty)
              (by simp only [hb, Bool.not_false]),
            List.filter_cons_of_pos (p := fun q : String × List MsgData => decide (q.1 ≠ c))
              (by simpa using hxc),
            List.filter_cons_of_pos (p := fun q : String × List MsgData => decide (q.1 ≠ c))
              (by simpa using hxc), ih]

/-- Concrete instantiation of the amended C6 theorem: with
`"lobelia4cosmetics"` throttled, `"chemed"` is saved identically whether
or not the other channel was throttled. -/
theorem scrape_all_channels_flood_isolation_witness :
    (∀ p ∈ scrape_all_channels ["chemed", "lobelia4cosmetics"]
        (fun x => if x = "lobelia4cosmetics" then .floodWait 30 else .ok [exampleMsg]),
      p.1 ≠ "lobelia4cosmetics") ∧
    (scrape_all_channels ["chemed", "lobelia4cosmetics"]
        (fun x => if x = "lobelia4cosmetics" then .floodWait 30
          else .ok [exampleMsg])).filter
        (fun p => decide (p.1 ≠ "lobelia4cosmetics"))
      = (scrape_all_channels ["chemed", "lobelia4cosmetics"]
          (fun _ => .ok [exampleMsg])).filter
        (fun p => decide (p.1 ≠ "lobelia4cosmetics")) :=
  scrape_all_channels_flood_isolation _ _ _ "lobelia4cosmetics" 30
    (by simp) (fun x hx => by simp [hx])

/-! ## load_to_postgres.py : DatabaseLoader

A `RawRecord` is the tuple `prepare_batch_data` builds for one message
(the ten columns named in `insert_sql`); a `StoredRow` is a row of
`raw.telegram_messages`, whose `created_at` column is filled by the
database with the commit time of the inserting transaction.  The table
state is the list of its rows; the `ON CONFLICT (message_id,
channel_name) DO UPDATE` clause of `insert_sql` becomes an explicit
insert-or-update.  Timestamp-typed columns that the code merely copies
(`message_date`, `scraped_at`) stay the ISO strings the JSON held. -/

structure RawRecord where
  message_id : Int
  channel_name : String
  message_date : String
  message_text : String
  has_media : Bool
  image_path : Option String
  views : Int
  forwards : Int
  scraped_at : String
  raw_data : String
deriving DecidableEq

structure StoredRow where
  message_id : Int
  channel_name : String
  message_date : String
  message_text : String
  has_media : Bool
  image_path : Option String
  views : Int
  forwards : Int
  scraped_at : String
  raw_data : String
  created_at : Int
deriving DecidableEq

/-- The conflict target `(message_id, channel_name)` of `insert_sql`. -/
def rowKeyMatches (r : RawRecord) (row : StoredRow) : Bool :=
  row.message_id == r.message_id && row.channel_name == r.channel_name

/-- The INSERT arm: all ten column values come from the tuple, and
`created_at` takes its `CURRENT_TIMESTAMP` default `now`. -/
def insertRow (now : Int) (r : RawRecord) : StoredRow :=
  { message_id := r.message_id, channel_name := r.channel_name,
    message_date := r.message_date, message_text := r.message_text,
    has_media := r.has_media, image_path := r.image_path,
    views := r.views, forwards := r.forwards, scraped_at := r.scraped_at,
    raw_data := r.raw_data, created_at := now }

/-- The `DO UPDATE SET` arm of `insert_sql`: exactly `message_text`,
`views`, `forwards`, `scraped_at` and `raw_data` are overwritten from
the excluded tuple; every other column keeps its stored value. -/
def updateRow (r : RawRecord) (row : StoredRow) : StoredRow :=
  { row with
    message_text := r.message_text
    views := r.views
    forwards := r.forwards
    scraped_at := r.scraped_at
    raw_data := r.raw_data }

/-- One execution of `insert_sql` against table state `db` at commit
time `now`. -/
def upsertMessage (now : Int) (db : List StoredRow) (r : RawRecord) : List StoredRow :=
  if db.any (rowKeyMatches r) then
    db.map (fun row => if rowKeyMatches r row then updateRow r row else row)
  else db ++ [insertRow now r]

/-- Lookup of the stored row carrying a record's key. -/
def findByKey (r : RawRecord) (db : List StoredRow) : Option StoredRow :=
  db.find? (rowKeyMatches r)

lemma upsertMessage_pos (now : Int) (db : List StoredRow) (r : RawRecord)
    (h : db.any (rowKeyMatches r) = true) :
    upsertMessage now db r
      = db.map (fun row => if rowKeyMatches r row then updateRow r row else row) := by
  unfold upsertMessage
  rw [h]
  rfl

lemma upsertMessage_neg (now : Int) (db : List StoredRow) (r : RawRecord)
    (h : db.any (rowKeyMatches r) = false) :
    upsertMessage now db r = db ++ [insertRow now r] := by
  unfold upsertMessage
  rw [h]
  rfl

lemma find_map_updIf {α : Type} (p : α → Bool) (f : α → α)
    (hf : ∀ x, p (f x) = p x) (l : List α) :
    (l.map (fun x => if p x then f x else x)).find? p = (l.find? p).map f := by
  induction l with
  | nil => rfl
  | cons x xs ih =>
    cases hx : p x with
    | true =>
      have hhead : (if p x = true then f x else x) = f x := if_pos hx
      rw [List.map_cons, hhead, List.find?_cons_of_pos _ (by rw [hf x]; exact hx),
        List.find?_cons_of_pos _ hx]
      rfl
    | false =>
      have hhead : (if p x = true then f x else x) = x := if_neg (by simp [hx])
      rw [List.map_cons, hhead, List.find?_cons_of_neg _ (by simp [hx]),
        List.find?_cons_of_neg _ (by simp [hx]), ih]

lemma filter_map_updIf {α : Type} (p : α → Bool) (f : α → α)
    (hf : ∀ x, p (f x) = p x) (l : List α) :
    (l.map (fun x => if p x then f x else x)).filter p = (l.filter p).map f := by
  induction l with
  | nil => rfl
  | cons x xs ih =>
    cases hx : p x with
    | true =>
      have hhead : (if p x = true then f x else x) = f x := if_pos hx
      rw [List.map_cons, hhead, List.filter_cons_of_pos (by rw [hf x]; exact hx),
        List.filter_cons_of_pos hx, List.map_cons, ih]
    | false =>
      have hhead : (if p x = true then f x else x) = x := if_neg (by simp [hx])
      rw [List.map_cons, hhead, List.filter_cons_of_neg (by simp [hx]),
        List.filter_cons_of_neg (by simp [hx]), ih]

lemma filter_not_map_updIf {α : Type} (p : α → Bool) (f : α → α)
    (hf : ∀ x, p (f x) = p x) (l : List α) :
    (l.map (fun x => if p x then f x else x)).filter (fun x => !(p x))
      = l.filter (fun x => !(p x)) := by
  induction l with
  | nil => rfl
  | cons x xs ih =>
    cases hx : p x with
    | true =>
      have hhead : (if p x = true then f x else x) = f x := if_pos hx
      rw [List.map_cons, hhead, List.filter_cons_of_neg (by simp [hf x, hx]),
        List.filter_cons_of_neg (by simp [hx]), ih]
    | false =>
      have hhead : (if p x = true then f x else x) = x := if_neg (by simp [hx])
      rw [List.map_cons, hhead, List.filter_cons_of_pos (by simp [hx]),
        List.filter_cons_of_pos (by simp [hx]), ih]

lemma any_map_updIf {α : Type} (p : α → Bool) (f : α → α)
    (hf : ∀ x, p (f x) = p x) (l : List α) :
    (l.map (fun x => if p x then f x else x)).any p = l.any p := by
  induction l with
  | nil => rfl
  | cons x xs ih =>
    cases hx : p x with
    | true =>
      have hhead : (if p x = true then f x else x) = f x := if_pos hx
      rw [List.map_cons, hhead, List.any_cons, List.any_cons, hf x, ih]
    | false =>
      have hhead : (if p x = true then f x else x) = x := if_neg (by simp [hx])
      rw [List.map_cons, hhead, List.any_cons, List.any_cons, ih]

lemma updateRow_keyMatches (r r' : RawRecord) (row : StoredRow) :
    rowKeyMatches r (updateRow r' row) = rowKeyMatches r row := rfl

lemma insertRow_keyMatches (now : Int) (r : RawRecord) :
    rowKeyMatches r (insertRow now r) = true := by
  simp [rowKeyMatches, insertRow]

lemma upsert_filter_key_pos (now : Int) (db : List StoredRow) (r : RawRecord)
    (h : db.any (rowKeyMatches r) = true) :
    (upsertMessage now db r).filter (rowKeyMatches r)
      = (db.filter (rowKeyMatches r)).map (updateRow r) := by
  rw [upsertMessage_pos now db r h,
    filter_map_updIf (rowKeyMatches r) (updateRow r) (fun x => rfl)]

lemma upsert_filter_key_neg (now : Int) (db : List StoredRow) (r : RawRecord)
    (h : db.any (rowKeyMatches r) = false) :
    (upsertMessage now db r).filter (rowKeyMatches r) = [insertRow now r] := by
  rw [upsertMessage_neg now db r h, List.filter_append]
  have h1 : db.filter (rowKeyMatches r) = [] := by
    rw [List.filter_eq_nil_iff]
    intro x hx
    simpa using (List.any_eq_false.mp h) x hx
  rw [h1, List.filter_cons_of_pos (insertRow_keyMatches now r), List.nil_append,
    List.filter_nil]

lemma upsert_filter_not_key (now : Int) (db : List StoredRow) (r : RawRecord) :
    (upsertMessage now db r).filter (fun row => !(rowKeyMatches r row))
      = db.filter (fun row => !(rowKeyMatches r row)) := by
  cases h : db.any (rowKeyMatches r) with
  | true =>
    rw [upsertMessage_pos now db r h,
      filter_not_map_updIf (rowKeyMatches r) (updateRow r) (fun x => rfl)]
  | false =>
    rw [upsertMessage_neg now db r h, List.filter_append,
      List.filter_cons_of_neg (by simp [insertRow_keyMatches now r]), List.filter_nil,
      List.append_nil]

lemma upsert_any_key (now : Int) (db : List StoredRow) (r : RawRecord) :
    (upsertMessage now db r).any (rowKeyMatches r) = true := by
  cases h : db.any (rowKeyMatches r) with
  | true =>
    rw [upsertMessage_pos now db r h,
      any_map_updIf (rowKeyMatches r) (updateRow r) (fun x => rfl), h]
  | false =>
    rw [upsertMessage_neg now db r h, List.any_append]
    simp [insertRow_keyMatches now r]

lemma one_le_filter_length_of_any {α : Type} (p : α → Bool) (l : List α)
    (h : l.any p = true) : 1 ≤ (l.filter p).length := by
  rcases List.any_eq_true.mp h with ⟨x, hx, hpx⟩
  have hmem : x ∈ l.filter p := List.mem_filter.mpr ⟨hx, hpx⟩
  exact List.length_pos.mpr (List.ne_nil_of_mem hmem)

/-- The row that `upsertMessage` keeps at the existing key: old row with
a stale media reference, updated record with a fresh one. -/
def storedRowEx : StoredRow :=
  { message_id := 1, channel_name := "chemed",
    message_date := "2025-01-01T10:00:00", message_text := "old text",
    has_media := true, image_path := some "data/raw/images/chemed/1.jpg",
    views := 5, forwards := 1, scraped_at := "2025-01-02T00:00:00",
    raw_data := "raw v1", created_at := 100 }

/-- A re-collected version of the same message with a new media
reference, new text, new counters and a new raw payload. -/
def reRecordEx : RawRecord :=
  { message_id := 1, channel_name := "chemed",
    message_date := "2025-01-01T10:00:00", message_text := "new text",
    has_media := true, image_path := some "data/raw/images/chemed/1-v2.jpg",
    views := 9, forwards := 2, scraped_at := "2025-01-03T00:00:00",
    raw_data := "raw v2" }

/-- C4 counterexample: upserting a record whose key is already stored
does not overwrite the media reference — the stored `image_path` stays
at its old value although the incoming record carries a new one (the
`DO UPDATE SET` clause of `insert_sql` omits `image_path`), refuting the
claim that exactly text, media-reference, counters and collected-at are
overwritten. -/
theorem upsert_keeps_old_media_reference :
    (upsertMessage 200 [storedRowEx] reRecordEx).map StoredRow.image_path
      = [some "data/raw/images/chemed/1.jpg"] ∧
    reRecordEx.image_path = some "data/raw/images/chemed/1-v2.jpg" ∧
    (upsertMessage 200 [storedRowEx] reRecordEx).map StoredRow.raw_data = ["raw v2"] := by
  exact ⟨rfl, rfl, rfl⟩

/-- C4 amended: when the key `(message_id, channel_name)` is already
present, the upsert overwrites exactly the text, counter
(views/forwards), collected-at and raw-payload fields of that row and
leaves the media reference, message date, has-media flag, created-at
and the key columns unchanged; when the key is absent, a new row is
appended. -/
theorem upsert_frame (now : Int) (db : List StoredRow) (r : RawRecord) :
    (∀ row, findByKey r db = some row →
      findByKey r (upsertMessage now db r) = some (updateRow r row) ∧
      (updateRow r row).message_text = r.message_text ∧
      (updateRow r row).views = r.views ∧
      (updateRow r row).forwards = r.forwards ∧
      (updateRow r row).scraped_at = r.scraped_at ∧
      (updateRow r row).raw_data = r.raw_data ∧
      (updateRow r row).image_path = row.image_path ∧
      (updateRow r row).message_date = row.message_date ∧
      (updateRow r row).has_media = row.has_media ∧
      (updateRow r row).created_at = row.created_at ∧
      (updateRow r row).message_id = row.message_id ∧
      (updateRow r row).channel_name = row.channel_name) ∧
    (findByKey r db = none → upsertMessage now db r = db ++ [insertRow now r]) := by
  constructor
  · intro row hrow
    refine ⟨?_, rfl, rfl, rfl, rfl, rfl, rfl, rfl, rfl, rfl, rfl, rfl⟩
    have hany : db.any (rowKeyMatches r) = true := by
      rw [List.any_eq_true]
      exact ⟨row, List.mem_of_find?_eq_some hrow, List.find?_some hrow⟩
    unfold findByKey at hrow ⊢
    rw [upsertMessage_pos now db r hany,
      find_map_updIf (rowKeyMatches r) (updateRow r) (fun x => rfl), hrow]
    rfl
  · intro hnone
    have hany : db.any (rowKeyMatches r) = false := by
      rw [List.any_eq_false]
      intro x hx
      simpa using (List.find?_eq_none.mp hnone) x hx
    exact upsertMessage_neg now db r hany

/-- Concrete instantiation of the amended C4 theorem: the update case on
a one-row table and the insert case on the empty table. -/
theorem upsert_frame_witness :
    findByKey reRecordEx (upsertMessage 200 [storedRowEx] reRecordEx)
      = some (updateRow reRecordEx storedRowEx) ∧
    upsertMessage 200 [] reRecordEx = [] ++ [insertRow 200 reRecordEx] := by
  constructor
  · exact ((upsert_frame 200 [storedRowEx] reRecordEx).1 storedRowEx rfl).1
  · exact (upsert_frame 200 [] reRecordEx).2 rfl

/-- C3: if the table holds at most one row for a key (the uniqueness
constraint), then loading two versions of a record with that key — the
same or different mutable field values — leaves exactly one row with the
key, carrying the mutable fields (text, counters, collected-at, raw
payload) of the latest version, exactly as loading only the latest
version once does; rows under every other key are untouched in both
runs. -/
theorem load_raw_record_idempotent (t₁ t₂ : Int) (db : List StoredRow)
    (r₁ r₂ : RawRecord) (hid : r₁.message_id = r₂.message_id)
    (hch : r₁.channel_name = r₂.channel_name)
    (hwf : (db.filter (rowKeyMatches r₂)).length ≤ 1) :
    ((upsertMessage t₂ (upsertMessage t₁ db r₁) r₂).filter (rowKeyMatches r₂)).length = 1 ∧
    ((upsertMessage t₂ db r₂).filter (rowKeyMatches r₂)).length = 1 ∧
    (∀ row ∈ (upsertMessage t₂ (upsertMessage t₁ db r₁) r₂).filter (rowKeyMatches r₂),
      row.message_text = r₂.message_text ∧ row.views = r₂.views ∧
      row.forwards = r₂.forwards ∧ row.scraped_at = r₂.scraped_at ∧
      row.raw_data = r₂.raw_data) ∧
    (∀ row ∈ (upsertMessage t₂ db r₂).filter (rowKeyMatches r₂),
      row.message_text = r₂.message_text ∧ row.views = r₂.views ∧
      row.forwards = r₂.forwards ∧ row.scraped_at = r₂.scraped_at ∧
      row.raw_data = r₂.raw_data) ∧
    (upsertMessage t₂ (upsertMessage t₁ db r₁) r₂).filter
        (fun row => !(rowKeyMatches r₂ row))
      = db.filter (fun row => !(rowKeyMatches r₂ row)) ∧
    (upsertMessage t₂ db r₂).filter (fun row => !(rowKeyMatches r₂ row))
      = db.filter (fun row => !(rowKeyMatches r₂ row)) := by
  have hfun : rowKeyMatches r₁ = rowKeyMatches r₂ := by
    funext row
    unfold rowKeyMatches
    rw [hid, hch]
  have hA_any : (upsertMessage t₁ db r₁).any (rowKeyMatches r₂) = true := by
    have h := upsert_any_key t₁ db r₁
    rwa [hfun] at h
  have hA_not : (upsertMessage t₁ db r₁).filter (fun row => !(rowKeyMatches r₂ row))
      = db.filter (fun row => !(rowKeyMatches r₂ row)) := by
    have h := upsert_filter_not_key t₁ db r₁
    rwa [hfun] at h
  have hA_len : ((upsertMessage t₁ db r₁).filter (rowKeyMatches r₂)).length = 1 := by
    cases hany : db.any (rowKeyMatches r₂) with
    | true =>
      have h := upsert_filter_key_pos t₁ db r₁ (by rwa [hfun])
      rw [hfun] at h
      rw [h, List.length_map]
      exact le_antisymm hwf (one_le_filter_length_of_any _ _ hany)
    | false =>
      have h := upsert_filter_key_neg t₁ db r₁ (by rwa [hfun])
      rw [hfun] at h
      rw [h]
      rfl
  have htwice : (upsertMessage t₂ (upsertMessage t₁ db r₁) r₂).filter (rowKeyMatches r₂)
      = ((upsertMessage t₁ db r₁).filter (rowKeyMatches r₂)).map (updateRow r₂) :=
    upsert_filter_key_pos t₂ _ r₂ hA_any
  refine ⟨?_, ?_, ?_, ?_, ?_, ?_⟩
  · rw [htwice, List.length_map, hA_len]
  · cases hany : db.any (rowKeyMatches r₂) with
    | true =>
      rw [upsert_filter_key_pos t₂ db r₂ hany, List.length_map]
      exact le_antisymm hwf (one_le_filter_length_of_any _ _ hany)
    | false =>
      rw [upsert_filter_key_neg t₂ db r₂ hany]
      rfl
  · intro row hrow
    rw [htwice] at hrow
    rcases List.mem_map.mp hrow with ⟨x, _, hx⟩
    rw [← hx]
    exact ⟨rfl, rfl, rfl, rfl, rfl⟩
  · intro row hrow
    cases hany : db.any (rowKeyMatches r₂) with
    | true =>
      rw [upsert_filter_key_pos t₂ db r₂ hany] at hrow
      rcases List.mem_map.mp hrow with ⟨x, _, hx⟩
      rw [← hx]
      exact ⟨rfl, rfl, rfl, rfl, rfl⟩
    | false =>
      rw [upsert_filter_key_neg t₂ db r₂ hany] at hrow
      rcases List.mem_singleton.mp hrow with rfl
      exact ⟨rfl, rfl, rfl, rfl, rfl⟩
  · rw [upsert_filter_not_key t₂ _ r₂, hA_not]
  · exact upsert_filter_not_key t₂ db r₂

/-- The first collected version of a message. -/
def recV1 : RawRecord :=
  { message_id := 7, channel_name := "tikvahpharma",
    message_date := "2025-02-01T08:00:00", message_text := "price list v1",
    has_media := false, image_path := none, views := 10, forwards := 0,
    scraped_at := "2025-02-01T09:00:00", raw_data := "payload v1" }

/-- A re-collection of the same message with updated mutable fields. -/
def recV2 : RawRecord :=
  { message_id := 7, channel_name := "tikvahpharma",
    message_date := "2025-02-01T08:00:00", message_text := "price list v2",
    has_media := false, image_path := none, views := 25, forwards := 3,
    scraped_at := "2025-02-02T09:00:00", raw_data := "payload v2" }

/-- Concrete instantiation of the C3 theorem on the empty table. -/
theorem load_raw_record_idempotent_witness :
    ((upsertMessage 200 (upsertMessage 100 [] recV1) recV2).filter
        (rowKeyMatches recV2)).length = 1 ∧
    ((upsertMessage 200 [] recV2).filter (rowKeyMatches recV2)).length = 1 := by
  have h := load_raw_record_idempotent 100 200 [] recV1 recV2 rfl rfl
    (by simp [List.filter_nil])
  exact ⟨h.1, h.2.1⟩

/-- One call of `DatabaseLoader.load_batch` at commit time `now`:
`valid` models which tuples the database accepts (a malformed tuple
makes `execute_batch` raise); an accepted batch is committed atomically
(every tuple upserted), a rejected one is rolled back (state unchanged)
and the exception is re-raised, which `load_batch` models as `none`. -/
def load_batch (valid : RawRecord → Bool) (now : Int) (db : List StoredRow)
    (batch : List RawRecord) : Option (List StoredRow) :=
  if batch.all valid then some (batch.foldl (upsertMessage now) db) else none

/-- The batch loop of `DatabaseLoader.run` over all prepared batches of
all files: batches are loaded in order, and the exception re-raised by a
failing `load_batch` propagates out of `run` (its outer handler logs and
re-raises), ending the whole loading process.  The boolean tells whether
the run finished without error. -/
def run_loader (valid : RawRecord → Bool) (now : Int) (db : List StoredRow) :
    List (List RawRecord) → List StoredRow × Bool
  | [] => (db, true)
  | batch :: rest =>
    match load_batch valid now db batch with
    | some db' => run_loader valid now db' rest
    | none => (db, false)

lemma load_batch_pos (valid : RawRecord → Bool) (now : Int) (db : List StoredRow)
    (batch : List RawRecord) (h : batch.all valid = true) :
    load_batch valid now db batch = some (batch.foldl (upsertMessage now) db) := by
  unfold load_batch
  rw [h]
  rfl

lemma load_batch_neg (valid : RawRecord → Bool) (now : Int) (db : List StoredRow)
    (batch : List RawRecord) (h : batch.all valid = false) :
    load_batch valid now db batch = none := by
  unfold load_batch
  rw [h]
  rfl

lemma run_loader_cons_ok (valid : RawRecord → Bool) (now : Int)
    (db db' : List StoredRow) (batch : List RawRecord) (rest : List (List RawRecord))
    (h : load_batch valid now db batch = some db') :
    run_loader valid now db (batch :: rest) = run_loader valid now db' rest := by
  conv_lhs => unfold run_loader
  rw [h]

lemma run_loader_cons_fail (valid : RawRecord → Bool) (now : Int)
    (db : List StoredRow) (batch : List RawRecord) (rest : List (List RawRecord))
    (h : load_batch valid now db batch = none) :
    run_loader valid now db (batch :: rest) = (db, false) := by
  conv_lhs => unfold run_loader
  rw [h]

/-- The database rejects tuples whose text is the malformed marker. -/
def valid0 : RawRecord → Bool := fun r => !(r.message_text == "MALFORMED")

/-- A tuple the database rejects. -/
def malformedRec : RawRecord :=
  { message_id := 3, channel_name := "chemed",
    message_date := "2025-03-01T08:00:00", message_text := "MALFORMED",
    has_media := false, image_path := none, views := 0, forwards := 0,
    scraped_at := "2025-03-01T09:00:00", raw_data := "bad" }

/-- A well-formed tuple sharing the malformed tuple's batch. -/
def goodRecA : RawRecord :=
  { message_id := 4, channel_name := "chemed",
    message_date := "2025-03-01T08:05:00", message_text := "ok A",
    has_media := false, image_path := none, views := 1, forwards := 0,
    scraped_at := "2025-03-01T09:00:00", raw_data := "good a" }

/-- A well-formed tuple in a later batch. -/
def goodRecB : RawRecord :=
  { message_id := 5, channel_name := "chemed",
    message_date := "2025-03-01T08:10:00", message_text := "ok B",
    has_media := false, image_path := none, views := 2, forwards := 0,
    scraped_at := "2025-03-01T09:00:00", raw_data := "good b" }

/-- C8 counterexample: a first batch containing one malformed and one
well-formed tuple makes the run abort with the table left empty — the
well-formed tuple of the failing batch is never retried in a smaller
batch, and the entirely well-formed second batch (which alone would
commit, as the second conjunct shows) is never attempted.  This refutes
both the bisection retry and the no-abort parts of the claim. -/
theorem run_loader_aborts_on_bad_batch :
    run_loader valid0 100 [] [[malformedRec, goodRecA], [goodRecB]] = ([], false) ∧
    load_batch valid0 100 [] [goodRecB] = some [insertRow 100 goodRecB] := by
  exact ⟨rfl, rfl⟩

/-- C8 amended: a batch rejected for malformed input is rolled back
atomically and aborts the run at that point: the final table state
holds exactly the batches committed before it, the failing batch
contributes nothing, no smaller batches are retried, and no later batch
is loaded. -/
theorem run_loader_stops_at_first_failure (valid : RawRecord → Bool) (now : Int)
    (db : List StoredRow) (pre : List (List RawRecord)) (bad : List RawRecord)
    (post : List (List RawRecord)) (hpre : ∀ b ∈ pre, b.all valid = true)
    (hbad : bad.all valid = false) :
    run_loader valid now db (pre ++ bad :: post)
      = (pre.foldl (fun d b => b.foldl (upsertMessage now) d) db, false) := by
  induction pre generalizing db with
  | nil =>
    rw [List.nil_append, List.foldl_nil,
      run_loader_cons_fail valid now db bad post (load_batch_neg valid now db bad hbad)]
  | cons b bs ih =>
    rw [List.cons_append,
      run_loader_cons_ok valid now db (b.foldl (upsertMessage now) db) b _
        (load_batch_pos valid now db b (hpre b (by simp))),
      ih _ (fun x hx => hpre x (by simp [hx])), List.foldl_cons]

/-- Concrete instantiation of the amended C8 theorem: one committed
batch, then the malformed batch, then a batch that is never reached. -/
theorem run_loader_stops_at_first_failure_witness :
    run_loader valid0 100 [] [[goodRecA], [malformedRec], [goodRecB]]
      = ([[goodRecA]].foldl (fun d b => b.foldl (upsertMessage 100) d) [], false) :=
  run_loader_stops_at_first_failure valid0 100 [] [[goodRecA]] [malformedRec]
    [[goodRecB]] (by decide) (by decide)

/-! ## yolo_detect.py : save_results_csv and
     load_yolo_results.py : load_csv_results

The Python `csv` module round-trips every cell string faithfully
(quoting embedded separators and line breaks), so a CSV file is
modelled as its list of rows, each row its list of cells, header row
first; the `DictReader` of the loader keys cells by that fixed header,
here rendered positionally.  Cells are `List Char` because this code
joins, splits and strips them.  `str`/`int` and `str`/`float`
conversions are platform arithmetic: the embedding abstracts each as a
rendering function paired with a parsing function, with the Python
facts `int(str(x)) = x` and `float(str(q)) = q` (and that a rendered
float is nonempty, semicolon-free and whitespace-free) as hypotheses,
instantiated concretely in the witness. -/

abbrev Str := List Char

/-- Python `sep.join(parts)` for a one-character separator. -/
def pyJoin (sep : Char) : List Str → Str
  | [] => []
  | [x] => x
  | x :: y :: rest => x ++ sep :: pyJoin sep (y :: rest)

/-- Python `s.split(sep)` for a one-character separator: the empty
string splits into `[""]`, and `n` separator occurrences give `n + 1`
parts. -/
def pySplit (sep : Char) : Str → List Str
  | [] => [[]]
  | c :: rest =>
    if c = sep then [] :: pySplit sep rest
    else (c :: (pySplit sep rest).headD []) :: (pySplit sep rest).tail

/-- Python `s.strip()`: whitespace dropped from both ends. -/
def pyStrip (s : Str) : Str :=
  ((s.dropWhile Char.isWhitespace).reverse.dropWhile Char.isWhitespace).reverse

lemma pySplit_no_sep (sep : Char) (s : Str) (h : sep ∉ s) : pySplit sep s = [s] := by
  induction s with
  | nil => rfl
  | cons c rest ih =>
    have hc : ¬c = sep := by
      intro hceq
      apply h
      rw [hceq]
      exact List.mem_cons_self sep rest
    have hrest : sep ∉ rest := fun hm => h (List.mem_cons_of_mem c hm)
    unfold pySplit
    rw [if_neg hc, ih hrest]
    rfl

lemma pySplit_append (sep : Char) (x t : Str) (hx : sep ∉ x) :
    pySplit sep (x ++ sep :: t) = x :: pySplit sep t := by
  induction x with
  | nil =>
    show pySplit sep (sep :: t) = [] :: pySplit sep t
    conv_lhs => unfold pySplit
    rw [if_pos rfl]
  | cons c xs ih =>
    have hc : ¬c = sep := by
      intro hceq
      apply hx
      rw [hceq]
      exact List.mem_cons_self sep xs
    have hxs : sep ∉ xs := fun hm => hx (List.mem_cons_of_mem c hm)
    show pySplit sep (c :: (xs ++ sep :: t)) = (c :: xs) :: pySplit sep t
    conv_lhs => unfold pySplit
    rw [if_neg hc, ih hxs]
    rfl

lemma pySplit_pyJoin (sep : Char) (parts : List Str) (hne : parts ≠ [])
    (h : ∀ p ∈ parts, sep ∉ p) :
    pySplit sep (pyJoin sep parts) = parts := by
  induction parts with
  | nil => exact absurd rfl hne
  | cons x rest ih =>
    cases rest with
    | nil => exact pySplit_no_sep sep x (h x (by simp))
    | cons y ys =>
      show pySplit sep (x ++ sep :: pyJoin sep (y :: ys)) = x :: y :: ys
      rw [pySplit_append sep x _ (h x (by simp)),
        ih (by simp) (fun p hp => h p (List.mem_cons_of_mem x hp))]

lemma pyStrip_of_no_ws (s : Str) (h : ∀ c ∈ s, c.isWhitespace = false) :
    pyStrip s = s := by
  have h1 : ∀ t : Str, (∀ c ∈ t, c.isWhitespace = false) →
      t.dropWhile Char.isWhitespace = t := by
    intro t ht
    cases t with
    | nil => rfl
    | cons a l =>
      rw [List.dropWhile_cons, ht a (by simp)]
      rfl
  unfold pyStrip
  rw [h1 s h, h1 s.reverse (fun c hc => h c (List.mem_reverse.mp hc)),
    List.reverse_reverse]

/-- One detection as the CSV writer sees it (only `class_name` and
`confidence` reach the CSV); the confidence type `F` stands for the
Python float. -/
structure CsvDetection (F : Type) where
  class_name : Str
  confidence : F
deriving DecidableEq

/-- One per-image result dict as `save_results_csv` reads it; `I`
stands for the Python int. -/
structure CsvResult (I F : Type) where
  message_id : I
  channel_name : Str
  filename : Str
  image_path : Str
  detection_count : I
  image_category : Str
  processing_time : Str
  detections : List (CsvDetection F)
deriving DecidableEq

/-- The header row written by `save_results_csv`. -/
def csvHeader : List Str :=
  ["message_id".toList, "channel_name".toList, "filename".toList,
    "image_path".toList, "detection_count".toList, "image_category".toList,
    "processing_time".toList, "detected_objects".toList,
    "confidence_scores".toList]

/-- One data row of `save_results_csv`: the nine cells, the last two
being the semicolon-joined object names and confidence renderings. -/
def csvRow {I F : Type} (intStr : I → Str) (floatStr : F → Str)
    (r : CsvResult I F) : List Str :=
  [intStr r.message_id, r.channel_name, r.filename, r.image_path,
    intStr r.detection_count, r.image_category, r.processing_time,
    pyJoin ';' (r.detections.map (fun d => d.class_name)),
    pyJoin ';' (r.detections.map (fun d => floatStr d.confidence))]

/-- Embedding of `YOLODetector.save_results_csv`: header row then one
row per result. -/
def save_results_csv {I F : Type} (intStr : I → Str) (floatStr : F → Str)
    (results : List (CsvResult I F)) : List (List Str) :=
  csvHeader :: results.map (csvRow intStr floatStr)

/-- One parsed detection of the loader (keys `object`, `confidence`). -/
structure LoadedDetection (F : Type) where
  object : Str
  confidence : F
deriving DecidableEq

/-- One record built by `YOLOResultsLoader.load_csv_results`. -/
structure LoadedRecord (I F : Type) where
  message_id : I
  channel_name : Str
  image_path : Str
  detected_objects : List (LoadedDetection F)
  detection_count : I
  image_category : Str
  processing_date : Str
deriving DecidableEq

/-- Parsing of one `DictReader` row: split the two joined cells on the
semicolon, pair names with scores, keep the pairs in which both strings
are nonempty (Python truthiness), strip both, and parse the score. -/
def parse_csv_row {I F : Type} (intParse : Str → I) (floatParse : Str → F)
    (cells : List Str) : LoadedRecord I F :=
  { message_id := intParse (cells.getD 0 [])
    channel_name := cells.getD 1 []
    image_path := cells.getD 3 []
    detected_objects :=
      (((pySplit ';' (cells.getD 7 [])).zip (pySplit ';' (cells.getD 8 []))).filter
          (fun p => !p.1.isEmpty && !p.2.isEmpty)).map
        (fun p => LoadedDetection.mk (pyStrip p.1) (floatParse (pyStrip p.2)))
    detection_count := intParse (cells.getD 4 [])
    image_category := cells.getD 5 []
    processing_date := cells.getD 6 [] }

/-- Embedding of `YOLOResultsLoader.load_csv_results`: one record per
data row after the header. -/
def load_csv_results {I F : Type} (intParse : Str → I) (floatParse : Str → F) :
    List (List Str) → List (LoadedRecord I F)
  | [] => []
  | _header :: dataRows => dataRows.map (parse_csv_row intParse floatParse)

lemma isEmpty_false_of_ne_nil {α : Type} {l : List α} (h : l ≠ []) :
    l.isEmpty = false := by
  cases l with
  | nil => exact absurd rfl h
  | cons x xs => rfl

lemma detections_roundtrip {F : Type} (floatStr : F → Str) (floatParse : Str → F)
    (hFloat : ∀ q, floatParse (floatStr q) = q)
    (hFNE : ∀ q, floatStr q ≠ [])
    (hFSep : ∀ q, ';' ∉ floatStr q)
    (hFStrip : ∀ q, pyStrip (floatStr q) = floatStr q)
    (dets : List (CsvDetection F))
    (hnames : ∀ d ∈ dets, ';' ∉ d.class_name ∧ d.class_name ≠ [] ∧
      pyStrip d.class_name = d.class_name) :
    (((pySplit ';' (pyJoin ';' (dets.map (fun d => d.class_name)))).zip
        (pySplit ';' (pyJoin ';' (dets.map (fun d => floatStr d.confidence))))).filter
        (fun p => !p.1.isEmpty && !p.2.isEmpty)).map
      (fun p => LoadedDetection.mk (pyStrip p.1) (floatParse (pyStrip p.2)))
    = dets.map (fun d => LoadedDetection.mk d.class_name d.confidence) := by
  cases dets with
  | nil => rfl
  | cons d ds =>
    rw [pySplit_pyJoin ';' _ (by simp)
        (fun p hp => by
          rcases List.mem_map.mp hp with ⟨x, hx, hpx⟩
          rw [← hpx]
          exact (hnames x hx).1),
      pySplit_pyJoin ';' _ (by simp)
        (fun p hp => by
          rcases List.mem_map.mp hp with ⟨x, _, hpx⟩
          rw [← hpx]
          exact hFSep x.confidence),
      List.zip_map',
      List.filter_eq_self.mpr
        (fun p hp => by
          rcases List.mem_map.mp hp with ⟨x, hx, hpx⟩
          rw [← hpx]
          simp only [Bool.and_eq_true, Bool.not_eq_true']
          exact ⟨isEmpty_false_of_ne_nil (hnames x hx).2.1,
            isEmpty_false_of_ne_nil (hFNE x.confidence)⟩),
      List.map_map]
    refine List.map_congr_left (fun x hx => ?_)
    show LoadedDetection.mk (pyStrip x.class_name)
        (floatParse (pyStrip (floatStr x.confidence)))
      = LoadedDetection.mk x.class_name x.confidence
    rw [(hnames x hx).2.2, hFStrip, hFloat]

lemma parse_csv_row_roundtrip {I F : Type} (intStr : I → Str) (intParse : Str → I)
    (floatStr : F → Str) (floatParse : Str → F)
    (hInt : ∀ x, intParse (intStr x) = x)
    (hFloat : ∀ q, floatParse (floatStr q) = q)
    (hFNE : ∀ q, floatStr q ≠ [])
    (hFSep : ∀ q, ';' ∉ floatStr q)
    (hFStrip : ∀ q, pyStrip (floatStr q) = floatStr q)
    (r : CsvResult I F)
    (hnames : ∀ d ∈ r.detections, ';' ∉ d.class_name ∧ d.class_name ≠ [] ∧
      pyStrip d.class_name = d.class_name) :
    parse_csv_row intParse floatParse (csvRow intStr floatStr r)
      = { message_id := r.message_id, channel_name := r.channel_name,
          image_path := r.image_path,
          detected_objects :=
            r.detections.map (fun d => LoadedDetection.mk d.class_name d.confidence),
          detection_count := r.detection_count,
          image_category := r.image_category,
          processing_date := r.processing_time } := by
  unfold parse_csv_row csvRow
  simp only [List.getD_cons_zero, List.getD_cons_succ]
  rw [LoadedRecord.mk.injEq]
  exact ⟨hInt r.message_id, rfl, rfl,
    detections_roundtrip floatStr floatParse hFloat hFNE hFSep hFStrip
      r.detections hnames,
    hInt r.detection_count, rfl, rfl⟩

/-- C10 amended: writing detection results with `save_results_csv` and
reading them back with `load_csv_results` yields one record per result
with the same message id, channel name, image path, detection count and
category, and a `detected_objects` list carrying the same names and
confidences in the same order — provided every object name is free of
semicolons, nonempty, and carries no surrounding whitespace (the names
of the fixed YOLO class list all qualify), and given the Python
str/int and str/float round-trip facts for the rendered numbers.  A
result with an empty detection list round-trips to an empty
`detected_objects` list. -/
theorem save_load_csv_roundtrip {I F : Type} (intStr : I → Str) (intParse : Str → I)
    (floatStr : F → Str) (floatParse : Str → F)
    (hInt : ∀ x, intParse (intStr x) = x)
    (hFloat : ∀ q, floatParse (floatStr q) = q)
    (hFNE : ∀ q, floatStr q ≠ [])
    (hFSep : ∀ q, ';' ∉ floatStr q)
    (hFStrip : ∀ q, pyStrip (floatStr q) = floatStr q)
    (results : List (CsvResult I F))
    (hnames : ∀ r ∈ results, ∀ d ∈ r.detections, ';' ∉ d.class_name ∧
      d.class_name ≠ [] ∧ pyStrip d.class_name = d.class_name) :
    load_csv_results intParse floatParse (save_results_csv intStr floatStr results)
      = results.map (fun r =>
          { message_id := r.message_id, channel_name := r.channel_name,
            image_path := r.image_path,
            detected_objects :=
              r.detections.map (fun d => LoadedDetection.mk d.class_name d.confidence),
            detection_count := r.detection_count,
            image_category := r.image_category,
            processing_date := r.processing_time }) := by
  show (results.map (csvRow intStr floatStr)).map (parse_csv_row intParse floatParse)
      = _
  rw [List.map_map]
  exact List.map_congr_left (fun r hr =>
    parse_csv_row_roundtrip intStr intParse floatStr floatParse hInt hFloat
      hFNE hFSep hFStrip r (hnames r hr))

/-- The unary rendering `n ↦ "1" * (n + 1)` with its parser: a concrete
injective rendering/parsing pair standing in for Python str/int and
str/float in the witness. -/
def unaryStr (n : Nat) : Str := '1' :: List.replicate n '1'

/-- Parser inverting `unaryStr`. -/
def unaryParse (s : Str) : Nat := s.length - 1

lemma unaryStr_all_ones {n : Nat} {c : Char} (hc : c ∈ unaryStr n) : c = '1' := by
  rcases List.mem_cons.mp hc with h | h
  · exact h
  · exact (List.mem_replicate.mp h).2

lemma unaryStr_no_sep (n : Nat) : ';' ∉ unaryStr n := by
  intro h
  exact absurd (unaryStr_all_ones h) (by decide)

lemma unaryStr_ne_nil (n : Nat) : unaryStr n ≠ [] := by
  simp [unaryStr]

lemma unaryStr_strip (n : Nat) : pyStrip (unaryStr n) = unaryStr n :=
  pyStrip_of_no_ws _ (fun c hc => by rw [unaryStr_all_ones hc]; rfl)

lemma unaryParse_unaryStr (n : Nat) : unaryParse (unaryStr n) = n := by
  simp [unaryParse, unaryStr]

/-- A detection result whose single detection has the empty string as
object name (and no semicolon anywhere). -/
def badCsvResult : CsvResult Nat Nat :=
  { message_id := 1, channel_name := "chemed".toList,
    filename := "1.jpg".toList, image_path := "data/raw/images/chemed/1.jpg".toList,
    detection_count := 1, image_category := "other".toList,
    processing_time := "2025".toList, detections := [⟨[], 9⟩] }

/-- The detected-object counts obtained by writing `badCsvResult` and
reading the file back. -/
def badRoundTripObjectCounts : List Nat :=
  (load_csv_results unaryParse unaryParse
      (save_results_csv unaryStr unaryStr [badCsvResult])).map
    (fun rec => rec.detected_objects.length)

/-- C10 counterexample: a result with one detection whose object name
is the empty string — which contains no semicolon, satisfying the
claim's hypothesis — round-trips to a record with an empty
`detected_objects` list: the reader's truthiness filter drops the pair,
so the names do not survive with the same count and order. -/
theorem csv_roundtrip_drops_unnamed_detection :
    ([] : Str).contains ';' = false ∧
    badCsvResult.detections.length = 1 ∧
    badRoundTripObjectCounts = [0] := by
  exact ⟨rfl, rfl, rfl⟩

/-- A well-formed two-detection result for the witness. -/
def goodCsvResult : CsvResult Nat Nat :=
  { message_id := 2, channel_name := "chemed".toList,
    filename := "2.jpg".toList, image_path := "data/raw/images/chemed/2.jpg".toList,
    detection_count := 2, image_category := "promotional".toList,
    processing_time := "2025".toList,
    detections := [⟨"bottle".toList, 9⟩, ⟨"person".toList, 5⟩] }

/-- Concrete instantiation of the amended C10 theorem with the unary
rendering pair: a bottle-and-person result survives the round trip. -/
theorem save_load_csv_roundtrip_witness :
    load_csv_results unaryParse unaryParse
        (save_results_csv unaryStr unaryStr [goodCsvResult])
      = [{ message_id := 2, channel_name := "chemed".toList,
           image_path := "data/raw/images/chemed/2.jpg".toList,
           detected_objects := [⟨"bottle".toList, 9⟩, ⟨"person".toList, 5⟩],
           detection_count := 2, image_category := "promotional".toList,
           processing_date := "2025".toList }] := by
  have h := save_load_csv_roundtrip unaryStr unaryParse unaryStr unaryParse
    unaryParse_unaryStr unaryParse_unaryStr unaryStr_ne_nil unaryStr_no_sep
    unaryStr_strip [goodCsvResult]
    (by
      intro r hr d hd
      rcases List.mem_singleton.mp hr with rfl
      refine ⟨?_, ?_, ?_⟩ <;>
        rcases List.mem_cons.mp hd with rfl | hd2
      · decide
      · rcases List.mem_singleton.mp hd2 with rfl
        decide
      · decide
      · rcases List.mem_singleton.mp hd2 with rfl
        decide
      · decide
      · rcases List.mem_singleton.mp hd2 with rfl
        decide)
  rw [h]
  rfl

end MedWarehouse
